import Mathlib

/-!
Verification of the hash-pax BLE vaporizer protocol client (src/protocol.py,
src/probe.py, src/connection.py).

Bytes are modelled as `List Nat` (each entry one byte value).  The AES block
primitive comes from the external crypto library, so the packet-codec and
key-derivation definitions are parametrised by a block function
`E : List Nat → List Nat` standing for AES-128 encryption under the relevant
key; the hypothesis `∀ b, (E b).length = 16` records that AES maps its input
to a 16-byte block.  Rational numbers stand for Python floats (exact
arithmetic).
-/

/-- `IV_LENGTH` from src/protocol.py. -/
def IV_LENGTH : Nat := 16

/-- OFB keystream of `n` blocks, obtained by iterating the block cipher
starting from the IV, as the AES-OFB mode of the backing library does. -/
def ofbKeystream (E : List Nat → List Nat) : List Nat → Nat → List Nat
  | _, 0 => []
  | iv, n + 1 => E iv ++ ofbKeystream E (E iv) n

/-- OFB application: xor the data with the keystream.  Encryption and
decryption are the same operation in OFB mode. -/
def ofbApply (E : List Nat → List Nat) (iv data : List Nat) : List Nat :=
  List.zipWith Nat.xor data (ofbKeystream E iv ((data.length + 15) / 16))

/-- `decrypt_packet` from src/protocol.py: the last 16 bytes of the packet are
the IV, the rest is the ciphertext; a packet of at most 16 bytes raises
`ValueError("Invalid packet length")`. -/
def decrypt_packet (E : List Nat → List Nat) (packet : List Nat) :
    Except String (List Nat) :=
  if packet.length ≤ IV_LENGTH then .error "Invalid packet length"
  else
    .ok (ofbApply E (packet.drop (packet.length - IV_LENGTH))
      (packet.take (packet.length - IV_LENGTH)))

/-- `encrypt_packet` from src/protocol.py: plaintexts shorter than 16 bytes
are right-padded with zero bytes to 16 (`ljust`), then OFB-encrypted and the
IV is appended.  The randomly drawn IV is passed as a parameter so that
properties quantify over it. -/
def encrypt_packet (E : List Nat → List Nat) (iv plaintext : List Nat) :
    List Nat :=
  let padded := if plaintext.length < 16 then
      plaintext ++ List.replicate (16 - plaintext.length) 0
    else plaintext
  ofbApply E iv padded ++ iv

/-- Blockwise ECB encryption of `n` 16-byte blocks. -/
def ecbBlocks (E : List Nat → List Nat) : Nat → List Nat → List Nat
  | 0, _ => []
  | n + 1, data => E (data.take 16) ++ ecbBlocks E n (data.drop 16)

/-- `derive_shared_key` from src/protocol.py: the serial is concatenated with
itself and encrypted with `AES.new(master, MODE_ECB)` under the fixed master
key.  The library's ECB mode is modelled blockwise by `E` and raises
`ValueError` when the input length is not a multiple of the 16-byte block
size. -/
def derive_shared_key (E : List Nat → List Nat) (serial : List Nat) :
    Except String (List Nat) :=
  let serial_str := serial ++ serial
  if serial_str.length % 16 = 0 then
    .ok (ecbBlocks E (serial_str.length / 16) serial_str)
  else .error "ValueError: data must be padded to 16 byte boundary in ECB mode"

/-- `PaxMessageType` from src/protocol.py. -/
inductive PaxMessageType where
  | ActualTemp
  | HeaterSetPoint
  | Battery
  | Usage
  | UsageLimit
  | LockStatus
  | ChargeStatus
  | PodInserted
  | Time
  | DisplayName
  | HeaterRanges
  | DynamicMode
  | ColorTheme
  | Brightness
  | HapticMode
  | SupportedAttributes
  | HeatingParams
  | UiMode
  | ShellColor
  | LowSoCMode
  | CurrentTargetTemp
  | HeatingState
  | Haptics
  | StatusUpdate
  deriving DecidableEq

/-- The numeric value of each `PaxMessageType` member. -/
def PaxMessageType.value : PaxMessageType → Nat
  | .ActualTemp => 1
  | .HeaterSetPoint => 2
  | .Battery => 3
  | .Usage => 4
  | .UsageLimit => 5
  | .LockStatus => 6
  | .ChargeStatus => 7
  | .PodInserted => 8
  | .Time => 9
  | .DisplayName => 10
  | .HeaterRanges => 17
  | .DynamicMode => 19
  | .ColorTheme => 20
  | .Brightness => 21
  | .HapticMode => 23
  | .SupportedAttributes => 24
  | .HeatingParams => 25
  | .UiMode => 27
  | .ShellColor => 28
  | .LowSoCMode => 30
  | .CurrentTargetTemp => 31
  | .HeatingState => 32
  | .Haptics => 40
  | .StatusUpdate => 254

/-- Python's `PaxMessageType(n)` enum lookup: `some` on a valid value, `none`
where the constructor raises `ValueError`. -/
def PaxMessageType.ofValue? : Nat → Option PaxMessageType
  | 1 => some .ActualTemp
  | 2 => some .HeaterSetPoint
  | 3 => some .Battery
  | 4 => some .Usage
  | 5 => some .UsageLimit
  | 6 => some .LockStatus
  | 7 => some .ChargeStatus
  | 8 => some .PodInserted
  | 9 => some .Time
  | 10 => some .DisplayName
  | 17 => some .HeaterRanges
  | 19 => some .DynamicMode
  | 20 => some .ColorTheme
  | 21 => some .Brightness
  | 23 => some .HapticMode
  | 24 => some .SupportedAttributes
  | 25 => some .HeatingParams
  | 27 => some .UiMode
  | 28 => some .ShellColor
  | 30 => some .LowSoCMode
  | 31 => some .CurrentTargetTemp
  | 32 => some .HeatingState
  | 40 => some .Haptics
  | 254 => some .StatusUpdate
  | _ => none

/-- `pad_to_16_bytes` from src/protocol.py (`ljust(16, b'\x00')`). -/
def pad_to_16_bytes (data : List Nat) : List Nat :=
  data ++ List.replicate (16 - data.length) 0

/-- `struct.pack('<H', n)`: little-endian unsigned 16-bit. -/
def u16le (n : Nat) : List Nat := [n % 256, n / 256 % 256]

/-- `struct.pack('<Q', n)`: little-endian unsigned 64-bit. -/
def u64le (n : Nat) : List Nat :=
  [n % 256, n / 256 % 256, n / 256 ^ 2 % 256, n / 256 ^ 3 % 256,
   n / 256 ^ 4 % 256, n / 256 ^ 5 % 256, n / 256 ^ 6 % 256, n / 256 ^ 7 % 256]

/-- `struct.unpack` of a little-endian unsigned integer from bytes. -/
def leBytesToNat (bs : List Nat) : Nat :=
  bs.foldr (fun b acc => b + 256 * acc) 0

/-- Python's `int(x)` on a rational: truncation toward zero. -/
def ratTrunc (q : ℚ) : ℤ := q.num.tdiv (q.den : ℤ)

/-- `encode_temperature_message` from src/protocol.py:
`struct.pack('<BH', HeaterSetPoint, int(temperature * 10))` padded to 16
bytes; `'<H'` raises `struct.error` outside `0..65535`. -/
def encode_temperature_message (temperature : ℚ) : Except String (List Nat) :=
  if 0 ≤ ratTrunc (temperature * 10) ∧ ratTrunc (temperature * 10) < 65536 then
    .ok (pad_to_16_bytes (PaxMessageType.HeaterSetPoint.value ::
      u16le (ratTrunc (temperature * 10)).toNat))
  else .error "struct.error: argument out of range"

/-- The bitmask loop of `encode_status_update_message` from src/protocol.py
(the Python set is modelled as a list; the or-fold is order independent). -/
def statusBitmask (attributes : List PaxMessageType) : Nat :=
  attributes.foldl
    (fun bitmask attr =>
      if attr.value ≤ 63 then bitmask ||| (1 <<< attr.value) else bitmask) 0

/-- `encode_status_update_message` from src/protocol.py:
`struct.pack('<BQ', StatusUpdate, bitmask)` padded to 16 bytes. -/
def encode_status_update_message (attributes : List PaxMessageType) :
    List Nat :=
  pad_to_16_bytes
    (PaxMessageType.StatusUpdate.value :: u64le (statusBitmask attributes))

/-- The result of `handle_incoming_message`: the informational string returned
by each branch of src/protocol.py, abstracted to its decoded content. -/
inductive DecodedMsg where
  | unknownType (tag : Nat)
  | battery (level : Nat)
  | chargeStatus (charging : Bool)
  | lockStatus (locked : Bool)
  | heaterSetPoint (temp : ℚ)
  | actualTemp (temp : ℚ)
  | currentTargetTemp (temp : ℚ)
  | supportedAttributes (attrs : List PaxMessageType)
  | statusUpdate (attrs : List PaxMessageType)
  | dynamicMode (mode : Nat)
  | colorTheme (theme : Nat)
  | brightness (level : Nat)
  | hapticMode (mode : Nat)
  | uiMode (mode : Nat)
  | lowSoCMode (mode : Nat)
  | heatingState (st : Nat)
  | unhandledKnownType (t : PaxMessageType)
  deriving DecidableEq

/-- The attribute-set comprehension
`(PaxMessageType(attr) for attr in range(64) if bitmask & (1 << attr))` from
src/protocol.py: `PaxMessageType(attr)` raises an uncaught `ValueError` when a
set bit is not a valid enum value. -/
def decodeAttrBitmask (bitmask : Nat) : Except String (List PaxMessageType) :=
  if (List.range 64).all
      (fun n => !bitmask.testBit n || (PaxMessageType.ofValue? n).isSome) then
    .ok ((List.range 64).filterMap
      (fun n => if bitmask.testBit n then PaxMessageType.ofValue? n else none))
  else .error "ValueError: not a valid PaxMessageType"

/-- `handle_incoming_message` from src/protocol.py.  The `try` only guards the
enum lookup on `data[0]`; out-of-range indexing (`IndexError`), short
`struct.unpack` input (`struct.error`) and invalid bitmask bits (`ValueError`)
escape as exceptions, modelled by `.error`.  Known tags without a dedicated
branch fall through to the final informational return. -/
def handle_incoming_message : List Nat → Except String DecodedMsg
  | [] => .error "IndexError: index out of range"
  | tag :: rest =>
    match PaxMessageType.ofValue? tag with
    | none => .ok (.unknownType tag)
    | some mt =>
      match mt, rest with
      | .Battery, b :: _ => .ok (.battery b)
      | .Battery, [] => .error "IndexError: index out of range"
      | .ChargeStatus, b :: _ => .ok (.chargeStatus (b != 0))
      | .ChargeStatus, [] => .error "IndexError: index out of range"
      | .LockStatus, b :: _ => .ok (.lockStatus (b != 0))
      | .LockStatus, [] => .error "IndexError: index out of range"
      | .HeaterSetPoint, b0 :: b1 :: _ =>
        .ok (.heaterSetPoint (((b0 + 256 * b1 : Nat) : ℚ) / 10))
      | .HeaterSetPoint, _ => .error "struct.error: unpack requires 2 bytes"
      | .ActualTemp, b0 :: b1 :: _ =>
        .ok (.actualTemp (((b0 + 256 * b1 : Nat) : ℚ) / 10))
      | .ActualTemp, _ => .error "struct.error: unpack requires 2 bytes"
      | .CurrentTargetTemp, b0 :: b1 :: _ =>
        .ok (.currentTargetTemp (((b0 + 256 * b1 : Nat) : ℚ) / 10))
      | .CurrentTargetTemp, _ => .error "struct.error: unpack requires 2 bytes"
      | .SupportedAttributes, rest =>
        if 8 ≤ rest.length then
          (decodeAttrBitmask (leBytesToNat (rest.take 8))).map
            .supportedAttributes
        else .error "struct.error: unpack requires 8 bytes"
      | .StatusUpdate, rest =>
        if 8 ≤ rest.length then
          (decodeAttrBitmask (leBytesToNat (rest.take 8))).map .statusUpdate
        else .error "struct.error: unpack requires 8 bytes"
      | .DynamicMode, b :: _ => .ok (.dynamicMode b)
      | .DynamicMode, [] => .error "IndexError: index out of range"
      | .ColorTheme, b :: _ => .ok (.colorTheme b)
      | .ColorTheme, [] => .error "IndexError: index out of range"
      | .Brightness, b :: _ => .ok (.brightness b)
      | .Brightness, [] => .error "IndexError: index out of range"
      | .HapticMode, b :: _ => .ok (.hapticMode b)
      | .HapticMode, [] => .error "IndexError: index out of range"
      | .UiMode, b :: _ => .ok (.uiMode b)
      | .UiMode, [] => .error "IndexError: index out of range"
      | .LowSoCMode, b :: _ => .ok (.lowSoCMode b)
      | .LowSoCMode, [] => .error "IndexError: index out of range"
      | .HeatingState, b :: _ => .ok (.heatingState b)
      | .HeatingState, [] => .error "IndexError: index out of range"
      | mt, _ => .ok (.unhandledKnownType mt)

/-- Result of `PaxDeviceProber.perform_probe`: `handle_success` and
`handle_error` from src/probe.py and src/connection.py. -/
inductive ProbeResult where
  | success (device : String)
  | failure (message : String)
  deriving DecidableEq

/-- `ExpectedManufacturer` from src/probe.py and src/connection.py. -/
def ExpectedManufacturer : String := "PAX Labs, Inc"

/-- `ModelNameEra` from src/probe.py and src/connection.py. -/
def ModelNameEra : String := "ERA"

/-- `ModelNamePax3` from src/probe.py and src/connection.py. -/
def ModelNamePax3 : String := "PAX3"

/-- `PaxDeviceProber.perform_probe` from src/probe.py and src/connection.py:
the pure device-type decision on the manufacturer and model strings. -/
def perform_probe (manufacturer model : String) : ProbeResult :=
  if manufacturer ≠ ExpectedManufacturer then
    .failure ("Invalid manufacturer: " ++ manufacturer)
  else if model = ModelNameEra then .success "PaxEraDevice"
  else if model = ModelNamePax3 then .success "Pax3Device"
  else .failure ("Unsupported device: " ++ model)

/- ### Keystream lemmas -/

theorem ofbKeystream_length (E : List Nat → List Nat)
    (hE : ∀ b, (E b).length = 16) :
    ∀ (n : Nat) (iv : List Nat), (ofbKeystream E iv n).length = 16 * n := by
  intro n
  induction n with
  | zero => intro iv; simp [ofbKeystream]
  | succ m ih =>
    intro iv
    simp [ofbKeystream, List.length_append, hE, ih]
    omega

theorem ofbApply_length (E : List Nat → List Nat)
    (hE : ∀ b, (E b).length = 16) (iv data : List Nat) :
    (ofbApply E iv data).length = data.length := by
  simp only [ofbApply, List.length_zipWith, ofbKeystream_length E hE]
  omega

theorem zipWith_xor_cancel (p : List Nat) : ∀ ks : List Nat,
    p.length ≤ ks.length →
    List.zipWith Nat.xor (List.zipWith Nat.xor p ks) ks = p := by
  induction p with
  | nil => intro ks _; simp
  | cons a t ih =>
    intro ks h
    cases ks with
    | nil => simp at h
    | cons b ks =>
      simp only [List.zipWith_cons_cons]
      rw [ih ks (by simpa using h)]
      show ((a ^^^ b) ^^^ b) :: t = a :: t
      rw [Nat.xor_assoc, Nat.xor_self, Nat.xor_zero]

theorem decrypt_ofb_append (E : List Nat → List Nat)
    (hE : ∀ b, (E b).length = 16) (iv : List Nat) (hiv : iv.length = 16)
    (q : List Nat) (hq : 16 ≤ q.length) :
    decrypt_packet E (ofbApply E iv q ++ iv) = .ok q := by
  have hct : (ofbApply E iv q).length = q.length := ofbApply_length E hE iv q
  have hlen : (ofbApply E iv q ++ iv).length = q.length + 16 := by
    simp [List.length_append, hct, hiv]
  unfold decrypt_packet
  rw [if_neg (by simp only [hlen, IV_LENGTH]; omega)]
  have h1 : (ofbApply E iv q ++ iv).length - IV_LENGTH =
      (ofbApply E iv q).length := by
    simp only [hlen, hct, IV_LENGTH]
    omega
  rw [h1, List.take_left, List.drop_left]
  congr 1
  show List.zipWith Nat.xor (ofbApply E iv q)
      (ofbKeystream E iv (((ofbApply E iv q).length + 15) / 16)) = q
  rw [hct]
  exact zipWith_xor_cancel q _
    (by rw [ofbKeystream_length E hE]; omega)

theorem padded_length (p : List Nat) :
    (if p.length < 16 then p ++ List.replicate (16 - p.length) 0
      else p).length = max 16 p.length := by
  split <;> simp [List.length_append] <;> omega

/-- Shared round-trip core: decrypting the encryption of `p` (under any
16-byte-block cipher, with any 16-byte IV) returns the zero-padded
plaintext. -/
theorem decrypt_encrypt (E : List Nat → List Nat)
    (hE : ∀ b, (E b).length = 16) (iv : List Nat) (hiv : iv.length = 16)
    (p : List Nat) :
    decrypt_packet E (encrypt_packet E iv p) =
      .ok (if p.length < 16 then p ++ List.replicate (16 - p.length) 0
        else p) := by
  have he : encrypt_packet E iv p =
      ofbApply E iv (if p.length < 16 then
        p ++ List.replicate (16 - p.length) 0 else p) ++ iv := rfl
  rw [he]
  exact decrypt_ofb_append E hE iv hiv _ (by rw [padded_length]; omega)

/- ### Claim theorems: packet codec -/

/-- C1: for every 16-byte-block cipher and every plaintext `p`, decrypting the
frame produced by `encrypt_packet` with `decrypt_packet` under the same key
returns `p` when `p` has at least 16 bytes, and `p` right-padded with zero
bytes to exactly 16 bytes when it is shorter, for every IV chosen during
encryption. -/
theorem encrypt_decrypt_roundtrip (E : List Nat → List Nat)
    (hE : ∀ b, (E b).length = 16) (iv : List Nat) (hiv : iv.length = 16)
    (p : List Nat) :
    decrypt_packet E (encrypt_packet E iv p) =
      .ok (if p.length < 16 then p ++ List.replicate (16 - p.length) 0
        else p) :=
  decrypt_encrypt E hE iv hiv p

/-- Witness for C1 at a concrete cipher, IV and plaintext. -/
theorem encrypt_decrypt_roundtrip_witness :
    decrypt_packet (fun _ => List.replicate 16 0)
      (encrypt_packet (fun _ => List.replicate 16 0)
        (List.replicate 16 0) [1, 2, 3]) =
      .ok (if ([1, 2, 3] : List Nat).length < 16 then
        [1, 2, 3] ++ List.replicate (16 - ([1, 2, 3] : List Nat).length) 0
      else [1, 2, 3]) :=
  encrypt_decrypt_roundtrip (fun _ => List.replicate 16 0) (fun _ => rfl)
    (List.replicate 16 0) rfl [1, 2, 3]

/-- C4: `decrypt_packet` fails with the frame-too-short error exactly when the
frame has at most 16 bytes; every longer frame decodes successfully to a
plaintext of length `frame.length - 16`. -/
theorem decrypt_short_frame (E : List Nat → List Nat)
    (hE : ∀ b, (E b).length = 16) (packet : List Nat) :
    (decrypt_packet E packet = .error "Invalid packet length" ↔
      packet.length ≤ 16) ∧
    (16 < packet.length →
      ∃ r, decrypt_packet E packet = .ok r ∧
        r.length = packet.length - 16) := by
  constructor
  · constructor
    · intro h
      by_contra hlen
      unfold decrypt_packet at h
      rw [if_neg (by simp only [IV_LENGTH]; omega)] at h
      exact Except.noConfusion h
    · intro h
      unfold decrypt_packet
      rw [if_pos (by simp only [IV_LENGTH]; omega)]
  · intro h
    unfold decrypt_packet
    rw [if_neg (by simp only [IV_LENGTH]; omega)]
    refine ⟨_, rfl, ?_⟩
    rw [ofbApply_length E hE]
    simp only [List.length_take, IV_LENGTH]
    omega

/-- Witness for C4 at a concrete cipher and 17-byte frame. -/
theorem decrypt_short_frame_witness :
    (decrypt_packet (fun _ => List.replicate 16 0) (List.replicate 17 5) =
      .error "Invalid packet length" ↔
      (List.replicate 17 5 : List Nat).length ≤ 16) ∧
    (16 < (List.replicate 17 5 : List Nat).length →
      ∃ r, decrypt_packet (fun _ => List.replicate 16 0)
          (List.replicate 17 5) = .ok r ∧
        r.length = (List.replicate 17 5 : List Nat).length - 16) :=
  decrypt_short_frame (fun _ => List.replicate 16 0) (fun _ => rfl)
    (List.replicate 17 5)

/-- C9: every frame produced by `encrypt_packet` has length
`max 16 p.length + 16 ≥ 32`, so it satisfies the EncryptedFrame invariant and
`decrypt_packet` applied to it never takes the frame-too-short branch. -/
theorem encrypt_frame_invariant (E : List Nat → List Nat)
    (hE : ∀ b, (E b).length = 16) (iv : List Nat) (hiv : iv.length = 16)
    (p : List Nat) :
    (encrypt_packet E iv p).length = max 16 p.length + 16 ∧
    32 ≤ (encrypt_packet E iv p).length ∧
    ∃ r, decrypt_packet E (encrypt_packet E iv p) = .ok r := by
  have he : encrypt_packet E iv p =
      ofbApply E iv (if p.length < 16 then
        p ++ List.replicate (16 - p.length) 0 else p) ++ iv := rfl
  have hlen : (encrypt_packet E iv p).length = max 16 p.length + 16 := by
    rw [he, List.length_append, ofbApply_length E hE, padded_length, hiv]
  refine ⟨hlen, by omega, ⟨_, decrypt_encrypt E hE iv hiv p⟩⟩

/-- Witness for C9 at a concrete cipher, IV and plaintext. -/
theorem encrypt_frame_invariant_witness :
    (encrypt_packet (fun _ => List.replicate 16 0) (List.replicate 16 0)
      [1, 2, 3]).length = max 16 ([1, 2, 3] : List Nat).length + 16 ∧
    32 ≤ (encrypt_packet (fun _ => List.replicate 16 0)
      (List.replicate 16 0) [1, 2, 3]).length ∧
    ∃ r, decrypt_packet (fun _ => List.replicate 16 0)
      (encrypt_packet (fun _ => List.replicate 16 0)
        (List.replicate 16 0) [1, 2, 3]) = .ok r :=
  encrypt_frame_invariant (fun _ => List.replicate 16 0) (fun _ => rfl)
    (List.replicate 16 0) rfl [1, 2, 3]

/- ### Claim theorems: key derivation -/

/-- C2 counterexample: a 16-byte serial does not have length 8, yet
`derive_shared_key` succeeds on it (the doubled serial is 32 bytes, a multiple
of the block size, so the library's ECB mode accepts it and a 32-byte value is
returned instead of an error). -/
theorem derive_key_length_counterexample :
    (List.replicate 16 65 : List Nat).length ≠ 8 ∧
    derive_shared_key (fun _ => List.replicate 16 0)
      (List.replicate 16 65) = .ok (List.replicate 32 0) := by
  constructor
  · decide
  · rfl

theorem ecbBlocks_length (E : List Nat → List Nat)
    (hE : ∀ b, (E b).length = 16) :
    ∀ (n : Nat) (data : List Nat), (ecbBlocks E n data).length = 16 * n := by
  intro n
  induction n with
  | zero => intro data; simp [ecbBlocks]
  | succ m ih =>
    intro data
    simp [ecbBlocks, List.length_append, hE, ih]
    omega

/-- C2 amended: `derive_shared_key` fails with the block-size error exactly
when the serial's byte length is not a multiple of 8 (so 16-, 24-, ...-byte
serials also succeed), and every 8-byte (8-character ASCII) serial yields a
16-byte key. -/
theorem derive_key_spec (E : List Nat → List Nat)
    (hE : ∀ b, (E b).length = 16) (serial : List Nat) :
    ((∃ e, derive_shared_key E serial = .error e) ↔
      serial.length % 8 ≠ 0) ∧
    (serial.length = 8 →
      ∃ k, derive_shared_key E serial = .ok k ∧ k.length = 16) := by
  have hlen : (serial ++ serial).length = 2 * serial.length := by
    simp [List.length_append]; omega
  constructor
  · constructor
    · intro ⟨e, he⟩
      intro hmod
      unfold derive_shared_key at he
      rw [if_pos (by rw [hlen]; omega)] at he
      exact Except.noConfusion he
    · intro hmod
      refine ⟨"ValueError: data must be padded to 16 byte boundary in ECB mode", ?_⟩
      unfold derive_shared_key
      rw [if_neg (by rw [hlen]; omega)]
  · intro h8
    unfold derive_shared_key
    rw [if_pos (by rw [hlen, h8])]
    refine ⟨_, rfl, ?_⟩
    rw [ecbBlocks_length E hE]
    rw [hlen, h8]

/-- Witness for the amended C2 at a concrete cipher and 8-byte serial. -/
theorem derive_key_spec_witness :
    ((∃ e, derive_shared_key (fun _ => List.replicate 16 0)
        (List.replicate 8 65) = .error e) ↔
      (List.replicate 8 65 : List Nat).length % 8 ≠ 0) ∧
    ((List.replicate 8 65 : List Nat).length = 8 →
      ∃ k, derive_shared_key (fun _ => List.replicate 16 0)
          (List.replicate 8 65) = .ok k ∧ k.length = 16) :=
  derive_key_spec (fun _ => List.replicate 16 0) (fun _ => rfl)
    (List.replicate 8 65)

/- ### Claim theorems: message catalogue -/

theorem statusBitmask_go_testBit (N : Nat) :
    ∀ (attrs : List PaxMessageType) (acc : Nat),
      ((attrs.foldl
        (fun bitmask attr =>
          if attr.value ≤ 63 then bitmask ||| (1 <<< attr.value) else bitmask)
        acc).testBit N = true) ↔
      (acc.testBit N = true ∨ ((∃ a ∈ attrs, a.value = N) ∧ N ≤ 63)) := by
  intro attrs
  induction attrs with
  | nil => intro acc; simp
  | cons x t ih =>
    intro acc
    simp only [List.foldl_cons]
    rw [ih]
    by_cases hx : x.value ≤ 63
    · rw [if_pos hx]
      simp only [Nat.testBit_or, Nat.one_shiftLeft, Nat.testBit_two_pow,
        Bool.or_eq_true, decide_eq_true_eq, List.mem_cons]
      constructor
      · rintro ((h | h) | ⟨⟨a, ha, hav⟩, hN⟩)
        · exact Or.inl h
        · exact Or.inr ⟨⟨x, Or.inl rfl, h⟩, h ▸ hx⟩
        · exact Or.inr ⟨⟨a, Or.inr ha, hav⟩, hN⟩
      · rintro (h | ⟨⟨a, (rfl | ha), hav⟩, hN⟩)
        · exact Or.inl (Or.inl h)
        · exact Or.inl (Or.inr hav)
        · exact Or.inr ⟨⟨a, ha, hav⟩, hN⟩
    · rw [if_neg hx]
      simp only [List.mem_cons]
      constructor
      · rintro (h | ⟨⟨a, ha, hav⟩, hN⟩)
        · exact Or.inl h
        · exact Or.inr ⟨⟨a, Or.inr ha, hav⟩, hN⟩
      · rintro (h | ⟨⟨a, (rfl | ha), hav⟩, hN⟩)
        · exact Or.inl h
        · exact absurd (hav ▸ hN) hx
        · exact Or.inr ⟨⟨a, ha, hav⟩, hN⟩

theorem statusBitmask_testBit (attrs : List PaxMessageType) (N : Nat) :
    (statusBitmask attrs).testBit N = true ↔
      (∃ a ∈ attrs, a.value = N) ∧ N ≤ 63 := by
  have h := statusBitmask_go_testBit N attrs 0
  simpa [statusBitmask, Nat.zero_testBit] using h

/-- C5: the status-update bitmask sets bit N exactly for members whose tag
value N is at most 63 (members above 63 are silently excluded), and the
concrete set containing Battery (3) and LockStatus (6) encodes to tag 0xFE
followed by the 8-byte little-endian field of value 0x48. -/
theorem status_update_bitmask_spec :
    (∀ (attrs : List PaxMessageType) (N : Nat),
      (statusBitmask attrs).testBit N = true ↔
        (∃ a ∈ attrs, a.value = N) ∧ N ≤ 63) ∧
    encode_status_update_message [.Battery, .LockStatus] =
      [254, 72, 0, 0, 0, 0, 0, 0, 0, 0, 0, 0, 0, 0, 0, 0] ∧
    leBytesToNat [72, 0, 0, 0, 0, 0, 0, 0] = 72 :=
  ⟨statusBitmask_testBit, rfl, rfl⟩

/-- C6 counterexample: payload byte 0x02 has bit 0 clear, yet the decoder
reports charging, because src/protocol.py tests `data[1] != 0` instead of
masking bit 0, and decodes no charge-complete flag at all. -/
theorem chargeStatus_mask_counterexample :
    handle_incoming_message [7, 2] = .ok (.chargeStatus true) ∧
    Nat.testBit 2 0 = false :=
  ⟨rfl, rfl⟩

/-- C6 amended: for every payload byte, the ChargeStatus decoder reports
`charging = (byte != 0)`; no charge-complete flag is decoded. -/
theorem chargeStatus_decode (b : Nat) (rest : List Nat) :
    handle_incoming_message (7 :: b :: rest) =
      .ok (.chargeStatus (b != 0)) := rfl

/-- C7: every plaintext whose tag byte matches no known message variant
decodes to the informational UnknownMessageType result, never an
exception. -/
theorem unknown_tag_informational (tag : Nat) (rest : List Nat)
    (h : PaxMessageType.ofValue? tag = none) :
    handle_incoming_message (tag :: rest) = .ok (.unknownType tag) := by
  simp only [handle_incoming_message, h]

/-- Witness for C7 at the concrete unknown tag 0. -/
theorem unknown_tag_informational_witness :
    handle_incoming_message [0] = .ok (.unknownType 0) :=
  unknown_tag_informational 0 [] rfl

/-- C10: decoding a SupportedAttributes or StatusUpdate message whose 8-byte
bitmask has a bit set at a position that is not the value of any known tag
raises an unhandled error instead of returning an informational result. -/
theorem attr_bitmask_decode_not_total (rest : List Nat)
    (h8 : 8 ≤ rest.length) (N : Nat) (hN : N < 64)
    (hbit : (leBytesToNat (rest.take 8)).testBit N = true)
    (hbad : PaxMessageType.ofValue? N = none) :
    (∃ e, handle_incoming_message (24 :: rest) = .error e) ∧
    (∃ e, handle_incoming_message (254 :: rest) = .error e) := by
  have hall : ¬((List.range 64).all
      (fun n => !(leBytesToNat (rest.take 8)).testBit n ||
        (PaxMessageType.ofValue? n).isSome) = true) := by
    intro hall
    have h := List.all_eq_true.mp hall N (List.mem_range.mpr hN)
    rw [hbit, hbad] at h
    simp at h
  have hdec : decodeAttrBitmask (leBytesToNat (rest.take 8)) =
      .error "ValueError: not a valid PaxMessageType" := by
    unfold decodeAttrBitmask
    rw [if_neg hall]
  constructor
  · refine ⟨"ValueError: not a valid PaxMessageType", ?_⟩
    show (if 8 ≤ rest.length then
        (decodeAttrBitmask (leBytesToNat (rest.take 8))).map
          DecodedMsg.supportedAttributes
      else .error "struct.error: unpack requires 8 bytes") = _
    rw [if_pos h8, hdec]
    rfl
  · refine ⟨"ValueError: not a valid PaxMessageType", ?_⟩
    show (if 8 ≤ rest.length then
        (decodeAttrBitmask (leBytesToNat (rest.take 8))).map
          DecodedMsg.statusUpdate
      else .error "struct.error: unpack requires 8 bytes") = _
    rw [if_pos h8, hdec]
    rfl

/-- Witness for C10: bit 0 set, and 0 is not a valid tag value. -/
theorem attr_bitmask_decode_not_total_witness :
    (∃ e, handle_incoming_message (24 :: [1, 0, 0, 0, 0, 0, 0, 0]) =
      .error e) ∧
    (∃ e, handle_incoming_message (254 :: [1, 0, 0, 0, 0, 0, 0, 0]) =
      .error e) :=
  attr_bitmask_decode_not_total [1, 0, 0, 0, 0, 0, 0, 0] (by decide) 0
    (by decide) (by decide) rfl

/- ### Claim theorems: temperature messages -/

theorem ratTrunc_natCast (n : ℕ) : ratTrunc (n : ℚ) = (n : ℤ) := by
  unfold ratTrunc
  rw [Rat.num_natCast, Rat.den_natCast]
  simp [Int.tdiv_one]

theorem handle_heaterSetPoint (b0 b1 : Nat) (rest : List Nat) :
    handle_incoming_message (2 :: b0 :: b1 :: rest) =
      .ok (.heaterSetPoint (((b0 + 256 * b1 : Nat) : ℚ) / 10)) := rfl

/-- C3 counterexample: at temperature 93.35 °C the product is 933.5; the code
stores `int(933.5) = 933` while `round(933.5) = 934`, so the encoder does not
store `round(t*10)`. -/
theorem temperature_round_counterexample :
    encode_temperature_message ((1867 : ℚ) / 20) =
      .ok (pad_to_16_bytes (2 :: u16le 933)) ∧
    round ((1867 : ℚ) / 20 * 10) = (934 : ℤ) ∧ (933 : ℤ) ≠ 934 := by
  have ht : ratTrunc ((1867 : ℚ) / 20 * 10) = 933 := by
    norm_num [ratTrunc]
    decide
  refine ⟨?_, ?_, by decide⟩
  · unfold encode_temperature_message
    simp only [ht]
    rw [if_pos ⟨by decide, by decide⟩]
    rfl
  have h : (1867 : ℚ) / 20 * 10 = 1867 / 2 := by norm_num
  rw [h, round_eq]
  have h2 : (1867 : ℚ) / 2 + 1 / 2 = 934 := by norm_num
  rw [h2]
  norm_num

/-- C3 amended: the encoder stores `int(t*10)` (truncation toward zero) as a
little-endian unsigned 16-bit value after the tag byte, the decoder divides
the stored value by 10, and `decode(encode(t)) = t` for every representable
temperature, i.e. every nonnegative multiple of 0.1 up to 6553.5 °C. -/
theorem temperature_roundtrip (n : ℕ) (h : n ≤ 65535) :
    encode_temperature_message ((n : ℚ) / 10) =
      .ok (pad_to_16_bytes (2 :: u16le n)) ∧
    handle_incoming_message (pad_to_16_bytes (2 :: u16le n)) =
      .ok (.heaterSetPoint ((n : ℚ) / 10)) := by
  have h1 : ((n : ℚ) / 10) * 10 = (n : ℚ) := by field_simp
  have h2 : ratTrunc ((n : ℚ) / 10 * 10) = (n : ℤ) := by
    rw [h1, ratTrunc_natCast]
  constructor
  · unfold encode_temperature_message
    simp only [h2]
    rw [if_pos ⟨Int.natCast_nonneg n,
      by exact_mod_cast (by omega : n < 65536)⟩]
    rw [Int.toNat_natCast]
    rfl
  · have hpad : pad_to_16_bytes (2 :: u16le n) =
        2 :: (n % 256) :: (n / 256 % 256) :: List.replicate 13 0 := rfl
    rw [hpad, handle_heaterSetPoint]
    rw [show n % 256 + 256 * (n / 256 % 256) = n by omega]

/-- Witness for the amended C3 at 99.9 °C. -/
theorem temperature_roundtrip_witness :
    encode_temperature_message (((999 : ℕ) : ℚ) / 10) =
      .ok (pad_to_16_bytes (2 :: u16le 999)) ∧
    handle_incoming_message (pad_to_16_bytes (2 :: u16le 999)) =
      .ok (.heaterSetPoint (((999 : ℕ) : ℚ) / 10)) :=
  temperature_roundtrip 999 (by norm_num)

/- ### Claim theorems: device probing -/

/-- C8: for every probed device whose manufacturer string differs from the
expected vendor string, `perform_probe` takes the error path with the
invalid-manufacturer cause and never reaches the success path, regardless of
the model string. -/
theorem bad_manufacturer_faults (manufacturer model : String)
    (h : manufacturer ≠ ExpectedManufacturer) :
    perform_probe manufacturer model =
      .failure ("Invalid manufacturer: " ++ manufacturer) ∧
    ∀ d, perform_probe manufacturer model ≠ .success d := by
  unfold perform_probe
  rw [if_pos h]
  exact ⟨rfl, fun d hc => ProbeResult.noConfusion hc⟩

/-- Witness for C8 at a concrete wrong manufacturer and a known model. -/
theorem bad_manufacturer_faults_witness :
    perform_probe "ACME" "ERA" =
      .failure ("Invalid manufacturer: " ++ "ACME") ∧
    ∀ d, perform_probe "ACME" "ERA" ≠ .success d :=
  bad_manufacturer_faults "ACME" "ERA" (by decide)
